import Mathlib

/-!
Verification of the host-inventory ingestion and normalization layer.

This file gives a shallow embedding, in Lean 4, of the parts of the
repository that the claims concern:

* `app/xjoin.py` — `check_pagination`;
* `tasks/__init__.py` — `TestProducer`, `_EventProducer.emit_event`,
  `get_producer`, `msg_handler`, and the consumer loop body of
  `start_consumer._f`;
* `app/serialization.py` — `_deserialize_facts`, `serialize_canonical_facts`
  and `deserialize_host`.  That module is not part of the source tree given
  here; those functions are modelled from the specification and from their
  unit tests in `src/test_unit.py`, which pin the observable behavior.

JSON values (decoded Python objects) are modelled by the inductive type
`Val`; Python `dict`s become insertion-ordered association lists, which is
faithful to CPython's ordered dictionaries.  Exceptions become `Except` /
explicit result records, and stateful objects become explicit state records
with pure transition functions.
-/

/-- A decoded JSON value, i.e. the result of Python's `json.loads`:
`null`, booleans, integers, strings, arrays, and objects (insertion-ordered
key/value lists). -/
inductive Val where
  | vnull : Val
  | vbool : Bool → Val
  | vint : Int → Val
  | vstr : String → Val
  | vlist : List Val → Val
  | vobj : List (String × Val) → Val

mutual

def Val.beq : Val → Val → Bool
  | .vnull, .vnull => true
  | .vbool a, .vbool b => a == b
  | .vint a, .vint b => a == b
  | .vstr a, .vstr b => a == b
  | .vlist a, .vlist b => Val.beqL a b
  | .vobj a, .vobj b => Val.beqO a b
  | _, _ => false

def Val.beqL : List Val → List Val → Bool
  | [], [] => true
  | a :: as, b :: bs => Val.beq a b && Val.beqL as bs
  | _, _ => false

def Val.beqO : List (String × Val) → List (String × Val) → Bool
  | [], [] => true
  | (k, v) :: as, (l, w) :: bs => k == l && Val.beq v w && Val.beqO as bs
  | _, _ => false

end

mutual

theorem Val.beq_iff : ∀ a b : Val, Val.beq a b = true ↔ a = b
  | .vnull, .vnull => by simp [Val.beq]
  | .vbool a, .vbool b => by simp [Val.beq]
  | .vint a, .vint b => by simp [Val.beq]
  | .vstr a, .vstr b => by simp [Val.beq]
  | .vlist a, .vlist b => by
      rw [Val.beq, Val.beqL_iff a b]
      simp
  | .vobj a, .vobj b => by
      rw [Val.beq, Val.beqO_iff a b]
      simp
  | .vnull, .vbool _ => by simp [Val.beq]
  | .vnull, .vint _ => by simp [Val.beq]
  | .vnull, .vstr _ => by simp [Val.beq]
  | .vnull, .vlist _ => by simp [Val.beq]
  | .vnull, .vobj _ => by simp [Val.beq]
  | .vbool _, .vnull => by simp [Val.beq]
  | .vbool _, .vint _ => by simp [Val.beq]
  | .vbool _, .vstr _ => by simp [Val.beq]
  | .vbool _, .vlist _ => by simp [Val.beq]
  | .vbool _, .vobj _ => by simp [Val.beq]
  | .vint _, .vnull => by simp [Val.beq]
  | .vint _, .vbool _ => by simp [Val.beq]
  | .vint _, .vstr _ => by simp [Val.beq]
  | .vint _, .vlist _ => by simp [Val.beq]
  | .vint _, .vobj _ => by simp [Val.beq]
  | .vstr _, .vnull => by simp [Val.beq]
  | .vstr _, .vbool _ => by simp [Val.beq]
  | .vstr _, .vint _ => by simp [Val.beq]
  | .vstr _, .vlist _ => by simp [Val.beq]
  | .vstr _, .vobj _ => by simp [Val.beq]
  | .vlist _, .vnull => by simp [Val.beq]
  | .vlist _, .vbool _ => by simp [Val.beq]
  | .vlist _, .vint _ => by simp [Val.beq]
  | .vlist _, .vstr _ => by simp [Val.beq]
  | .vlist _, .vobj _ => by simp [Val.beq]
  | .vobj _, .vnull => by simp [Val.beq]
  | .vobj _, .vbool _ => by simp [Val.beq]
  | .vobj _, .vint _ => by simp [Val.beq]
  | .vobj _, .vstr _ => by simp [Val.beq]
  | .vobj _, .vlist _ => by simp [Val.beq]

theorem Val.beqL_iff : ∀ a b : List Val, Val.beqL a b = true ↔ a = b
  | [], [] => by simp [Val.beqL]
  | a :: as, b :: bs => by
      rw [Val.beqL, Bool.and_eq_true, Val.beq_iff a b, Val.beqL_iff as bs]
      simp
  | [], _ :: _ => by simp [Val.beqL]
  | _ :: _, [] => by simp [Val.beqL]

theorem Val.beqO_iff : ∀ a b : List (String × Val), Val.beqO a b = true ↔ a = b
  | [], [] => by simp [Val.beqO]
  | (k, v) :: as, (l, w) :: bs => by
      rw [Val.beqO, Bool.and_eq_true, Bool.and_eq_true, Val.beq_iff v w,
        Val.beqO_iff as bs]
      simp [beq_iff_eq]
  | [], _ :: _ => by simp [Val.beqO]
  | _ :: _, [] => by simp [Val.beqO]

end

instance : DecidableEq Val := fun a b =>
  decidable_of_iff (Val.beq a b = true) (Val.beq_iff a b)

/-- Python truthiness of a decoded JSON value: `None`, `False`, `0`, `""`,
`[]` and `{}` are falsy, everything else is truthy. -/
def Val.falsy : Val → Bool
  | .vnull => true
  | .vbool b => !b
  | .vint n => n == 0
  | .vstr s => s.isEmpty
  | .vlist xs => xs.isEmpty
  | .vobj kvs => kvs.isEmpty

/-- Replace the value at the first occurrence of key `k` in an association
list, leaving the list unchanged when the key is absent.  This models an
in-place `d[k] = v` update of an existing Python dict entry, which keeps
the key's insertion position. -/
def assocSet {α β : Type} [BEq α] : List (α × β) → α → β → List (α × β)
  | [], _, _ => []
  | (k', v') :: rest, k, v =>
      if k' == k then (k', v) :: rest else (k', v') :: assocSet rest k v

theorem assocSet_keys {α β : Type} [BEq α] (l : List (α × β)) (k : α) (v : β) :
    (assocSet l k v).map Prod.fst = l.map Prod.fst := by
  induction l with
  | nil => rfl
  | cons hd tl ih =>
      obtain ⟨k', v'⟩ := hd
      by_cases h : k' == k <;> simp [assocSet, h, ih]

theorem lookup_assocSet_self {α β : Type} [BEq α] [LawfulBEq α]
    (l : List (α × β)) (k : α) (v : β) (h : (l.lookup k).isSome) :
    (assocSet l k v).lookup k = some v := by
  induction l with
  | nil => simp [List.lookup] at h
  | cons hd tl ih =>
      obtain ⟨k', v'⟩ := hd
      by_cases hk : k == k'
      · have : k' == k := by rw [beq_iff_eq] at hk ⊢; exact hk.symm
        simp [assocSet, this, List.lookup, hk]
      · have hk' : ¬(k' == k) := by
          intro hc
          rw [beq_iff_eq] at hc hk
          exact hk hc.symm
        simp only [List.lookup, hk] at h
        simp [assocSet, hk', List.lookup, hk]
        exact ih (by simpa using h)

theorem lookup_assocSet_other {α β : Type} [BEq α] [LawfulBEq α]
    (l : List (α × β)) (k k' : α) (v : β) (h : ¬(k' == k)) :
    (assocSet l k v).lookup k' = l.lookup k' := by
  induction l with
  | nil => rfl
  | cons hd tl ih =>
      obtain ⟨k₀, v₀⟩ := hd
      by_cases hk : k₀ == k
      · have hne : ¬(k' == k₀) := by
          intro hc
          rw [beq_iff_eq] at hc hk
          subst hc hk
          exact h (by simp)
        simp [assocSet, hk, List.lookup, hne]
      · by_cases hq : k' == k₀ <;> simp [assocSet, hk, List.lookup, hq, ih]

/-! ## `app/xjoin.py` — `check_pagination`

Source:
```
def check_pagination(offset, total):
    if total and offset >= total:
        abort(404)
```
`total` may be `None` (modelled as `Option Int`); Python's `and`
short-circuits on a falsy `total` (`None` or `0`), so the comparison only
runs for a truthy total.  `abort(404)` raises; the result is modelled as
`some 404` (aborted with that HTTP status) versus `none` (normal return). -/
def check_pagination (offset : Int) (total : Option Int) : Option Nat :=
  match total with
  | none => none
  | some t => if t ≠ 0 ∧ offset ≥ t then some 404 else none

/-- C9: `check_pagination` aborts with HTTP 404 exactly when `total` is
truthy (non-`None` and non-zero) and `offset >= total`; in particular a
`total` of `None` or `0` never aborts, for every offset. -/
theorem check_pagination_aborts_iff (offset : Int) (total : Option Int) :
    (check_pagination offset total = some 404 ↔
      ∃ t, total = some t ∧ t ≠ 0 ∧ offset ≥ t) ∧
    check_pagination offset none = none ∧
    check_pagination offset (some 0) = none := by
  refine ⟨?_, rfl, by simp [check_pagination]⟩
  constructor
  · intro h
    match total with
    | none => simp [check_pagination] at h
    | some t =>
        by_cases hc : t ≠ 0 ∧ offset ≥ t
        · exact ⟨t, rfl, hc⟩
        · rw [check_pagination, if_neg hc] at h
          exact absurd h (by simp)
  · rintro ⟨t, rfl, ht, hge⟩
    simp [check_pagination, ht, hge]

/-- Witness for C9 at concrete inputs: with `total = 10` and
`offset = 10` the call aborts with 404, and with `total = 0` an enormous
offset still returns normally. -/
theorem check_pagination_aborts_iff_witness :
    check_pagination 10 (some 10) = some 404 ∧
    check_pagination 1000000 (some 0) = none :=
  ⟨((check_pagination_aborts_iff 10 (some 10)).1).2 ⟨10, rfl, by decide, by decide⟩,
    (check_pagination_aborts_iff 1000000 (some 0)).2.2⟩

/-! ## `tasks/__init__.py` — Kafka producer plumbing

`TestProducer` keeps two topic-keyed dicts of message lists.  `send`
appends a message record to `pending_messages[topic]` (creating the entry
when absent).  `flush` walks every pending topic and repeatedly `pop()`s —
from the END of the list — appending each popped message to
`sent_messages[topic]`; so one flush moves each topic's pending list,
reversed, onto its sent list, and leaves the (still present) pending entry
empty. -/

/-- UTF-8 encoding of one Unicode code point, as a list of byte values;
this models Python's `str.encode("utf-8")` byte-for-byte. -/
def utf8EncodeCp (c : Nat) : List Nat :=
  if c < 0x80 then [c]
  else if c < 0x800 then [0xC0 + c / 0x40, 0x80 + c % 0x40]
  else if c < 0x10000 then
    [0xE0 + c / 0x1000, 0x80 + c / 0x40 % 0x40, 0x80 + c % 0x40]
  else
    [0xF0 + c / 0x40000, 0x80 + c / 0x1000 % 0x40, 0x80 + c / 0x40 % 0x40,
      0x80 + c % 0x40]

/-- UTF-8 encoding of a whole string (Python `e.encode("utf-8")`). -/
def encodeUtf8 (s : String) : List Nat :=
  (s.data.map (fun c => utf8EncodeCp c.toNat)).flatten

/-- One message record as stored by `TestProducer.send`:
`{"value": ..., "key": ..., "partition": ..., "timestamp_ms": ...}`. -/
structure KMsg where
  value : Option (List Nat)
  key : Option (List Nat)
  partition : Option Int
  timestamp_ms : Option Int
deriving DecidableEq

/-- The state of a `TestProducer`: `pending_messages` and `sent_messages`,
each a topic-keyed insertion-ordered dict of message lists. -/
structure Producer where
  pending : List (String × List KMsg)
  sent : List (String × List KMsg)
deriving DecidableEq

/-- `TestProducer.send(topic, value, key, partition, timestamp_ms)`:
create the topic's pending list if missing, then append the record. -/
def Producer.send (p : Producer) (topic : String) (value key : Option (List Nat))
    (partition timestamp_ms : Option Int) : Producer :=
  let msg : KMsg := ⟨value, key, partition, timestamp_ms⟩
  match p.pending.lookup topic with
  | none => { p with pending := p.pending ++ [(topic, [msg])] }
  | some msgs => { p with pending := assocSet p.pending topic (msgs ++ [msg]) }

/-- One step of `TestProducer.flush` for a single topic: pop the pending
messages from the back, appending each to the topic's sent list (creating
it when absent); the popped sequence is the pending list reversed. -/
def sentAppend (acc : List (String × List KMsg)) (topic : String)
    (msgs : List KMsg) : List (String × List KMsg) :=
  match acc.lookup topic with
  | none => acc ++ [(topic, msgs)]
  | some cur => assocSet acc topic (cur ++ msgs)

/-- `TestProducer.flush()`: every pending topic's list is drained (in
reverse, by repeated `pop()`) onto the sent dict; the pending entries
survive as empty lists. -/
def Producer.flush (p : Producer) : Producer :=
  { pending := p.pending.map (fun tp => (tp.1, [])),
    sent := p.pending.foldl (fun acc tp => sentAppend acc tp.1 tp.2.reverse) p.sent }

/-- Default of the `KAFKA_EVENT_TOPIC` environment variable, the topic
`_EventProducer.emit_event` publishes to. -/
def EVENT_TOPIC : String := "platform.inventory.events"

/-- `_EventProducer.emit_event(e)`: `send(EVENT_TOPIC, value=e.encode("utf-8"))`
followed by `flush()`. -/
def emit_event (p : Producer) (e : String) : Producer :=
  (p.send EVENT_TOPIC (some (encodeUtf8 e)) none none none).flush

theorem lookup_append {α β : Type} [BEq α] (l₁ l₂ : List (α × β)) (k : α) :
    (l₁ ++ l₂).lookup k = ((l₁.lookup k).or (l₂.lookup k)) := by
  induction l₁ with
  | nil => simp [List.lookup]
  | cons hd tl ih =>
      obtain ⟨k₀, v₀⟩ := hd
      by_cases h : k == k₀ <;> simp [List.lookup, h, ih]

theorem lookup_map_const {α β γ : Type} [BEq α] (l : List (α × β)) (k : α)
    (c : γ) (h : (l.lookup k).isSome) :
    (l.map (fun p => (p.1, c))).lookup k = some c := by
  induction l with
  | nil => simp [List.lookup] at h
  | cons hd tl ih =>
      obtain ⟨k₀, v₀⟩ := hd
      simp only [List.map_cons]
      by_cases hk : k == k₀
      · simp [List.lookup, hk]
      · simp only [List.lookup, hk] at h
        simp only [List.lookup, hk]
        exact ih (by simpa using h)

theorem mem_assocSet_self {α β : Type} [BEq α] [LawfulBEq α]
    (l : List (α × β)) (k : α) (v : β) (h : (l.lookup k).isSome) :
    (k, v) ∈ assocSet l k v := by
  induction l with
  | nil => simp [List.lookup] at h
  | cons hd tl ih =>
      obtain ⟨k₀, v₀⟩ := hd
      by_cases hk : k₀ == k
      · have : k₀ = k := by rwa [beq_iff_eq] at hk
        subst this
        simp [assocSet]
      · have hq : ¬(k == k₀) := by
          intro hc
          rw [beq_iff_eq] at hc hk
          exact hk hc.symm
        simp only [List.lookup, hq] at h
        simp only [assocSet, hk, if_false]
        exact List.mem_cons_of_mem _ (ih (by simpa using h))

theorem mem_sentAppend_preserve (acc : List (String × List KMsg))
    (t t' : String) (msgs : List KMsg) (m : KMsg)
    (h : m ∈ (acc.lookup t).getD []) :
    m ∈ ((sentAppend acc t' msgs).lookup t).getD [] := by
  by_cases hne : t == t'
  · rw [beq_iff_eq] at hne
    subst hne
    match hacc : acc.lookup t with
    | none => rw [hacc] at h; simp at h
    | some cur =>
        rw [hacc] at h
        simp only [sentAppend, hacc]
        rw [lookup_assocSet_self acc t (cur ++ msgs) (by simp [hacc])]
        simp only [Option.getD_some] at h ⊢
        exact List.mem_append_left _ h
  · have hts : ¬(t == t') := hne
    simp only [sentAppend]
    match hacc : acc.lookup t' with
    | none =>
        rw [lookup_append]
        match hq : acc.lookup t with
        | none => rw [hq] at h; simp at h
        | some cur => rw [hq] at h; simpa [List.lookup, hts] using h
    | some cur =>
        rw [lookup_assocSet_other acc t' t (cur ++ msgs) hts]
        exact h

theorem mem_sentAppend_self (acc : List (String × List KMsg)) (t : String)
    (msgs : List KMsg) (m : KMsg) (h : m ∈ msgs) :
    m ∈ ((sentAppend acc t msgs).lookup t).getD [] := by
  simp only [sentAppend]
  match hacc : acc.lookup t with
  | none =>
      rw [lookup_append, hacc]
      simp [List.lookup, h]
  | some cur =>
      rw [lookup_assocSet_self acc t (cur ++ msgs) (by simp [hacc])]
      simp [h]

theorem foldl_sentAppend_preserve (l : List (String × List KMsg))
    (acc : List (String × List KMsg)) (t : String) (m : KMsg)
    (h : m ∈ (acc.lookup t).getD []) :
    m ∈ ((l.foldl (fun a tp => sentAppend a tp.1 tp.2.reverse) acc).lookup t).getD [] := by
  induction l generalizing acc with
  | nil => exact h
  | cons hd tl ih =>
      exact ih _ (mem_sentAppend_preserve acc t hd.1 hd.2.reverse m h)

theorem foldl_sentAppend_mem (l : List (String × List KMsg))
    (acc : List (String × List KMsg)) (t : String) (msgs : List KMsg)
    (m : KMsg) (hl : (t, msgs) ∈ l) (hm : m ∈ msgs) :
    m ∈ ((l.foldl (fun a tp => sentAppend a tp.1 tp.2.reverse) acc).lookup t).getD [] := by
  induction l generalizing acc with
  | nil => simp at hl
  | cons hd tl ih =>
      rcases List.mem_cons.mp hl with heq | htl
      · subst heq
        exact foldl_sentAppend_preserve tl _ t m
          (mem_sentAppend_self acc t msgs.reverse m (List.mem_reverse.mpr hm))
      · exact ih _ htl

/-- C7: `emit_event e` UTF-8-encodes `e`, enqueues it on the event topic and
flushes before returning: afterwards the encoded message sits in
`sent_messages` under the event topic and the event topic's
`pending_messages` list is empty. -/
theorem emit_event_sends_and_flushes (p : Producer) (e : String) :
    (emit_event p e).pending.lookup EVENT_TOPIC = some [] ∧
    ∃ l, (emit_event p e).sent.lookup EVENT_TOPIC = some l ∧
      (⟨some (encodeUtf8 e), none, none, none⟩ : KMsg) ∈ l := by
  set m₀ : KMsg := ⟨some (encodeUtf8 e), none, none, none⟩ with hm₀
  set q := p.send EVENT_TOPIC (some (encodeUtf8 e)) none none none with hq
  have hsome : (q.pending.lookup EVENT_TOPIC).isSome := by
    rw [hq]
    simp only [Producer.send]
    match hp : p.pending.lookup EVENT_TOPIC with
    | none =>
        simp only
        rw [lookup_append, hp]
        simp [List.lookup]
    | some msgs =>
        simp only
        rw [lookup_assocSet_self p.pending EVENT_TOPIC _ (by simp [hp])]
        simp
  have hmem : ∃ msgs, (EVENT_TOPIC, msgs) ∈ q.pending ∧ m₀ ∈ msgs := by
    rw [hq]
    simp only [Producer.send]
    match hp : p.pending.lookup EVENT_TOPIC with
    | none =>
        exact ⟨[m₀], by simp, by simp⟩
    | some msgs =>
        refine ⟨msgs ++ [m₀], ?_, by simp⟩
        exact mem_assocSet_self p.pending EVENT_TOPIC _ (by simp [hp])
  constructor
  · show (q.flush).pending.lookup EVENT_TOPIC = some []
    simp only [Producer.flush]
    exact lookup_map_const q.pending EVENT_TOPIC [] hsome
  · show ∃ l, (q.flush).sent.lookup EVENT_TOPIC = some l ∧ m₀ ∈ l
    obtain ⟨msgs, hin, hm⟩ := hmem
    have hqs : q.sent = p.sent := by
      rw [hq]
      simp only [Producer.send]
      split <;> rfl
    have hfold : m₀ ∈ ((q.flush).sent.lookup EVENT_TOPIC).getD [] := by
      simp only [Producer.flush, hqs]
      exact foldl_sentAppend_mem q.pending p.sent EVENT_TOPIC msgs m₀ hin hm
    match hres : ((q.flush).sent.lookup EVENT_TOPIC) with
    | none =>
        rw [hres] at hfold
        simp at hfold
    | some l =>
        refine ⟨l, rfl, ?_⟩
        rw [hres] at hfold
        simpa using hfold

/-! ## `tasks/__init__.py` — `get_producer`

Source:
```
def get_producer():
    if "producer" not in g:
        g.producer = _EventProducer()
    return g.producer
```
The Flask application-context object `g` is modelled as a record holding
the optional stored producer.  Producer instances are identified by a
construction index; `constructions` counts how many times the
`_EventProducer` constructor has run in this context. -/
structure FlaskG where
  producer : Option Nat
  constructions : Nat
deriving DecidableEq

/-- `get_producer()`: return the stored instance, or construct, store and
return a fresh one. -/
def get_producer (g : FlaskG) : Nat × FlaskG :=
  match g.producer with
  | some p => (p, g)
  | none => (g.constructions,
      { producer := some g.constructions, constructions := g.constructions + 1 })

/-- `n` successive `get_producer()` calls threaded through the context. -/
def get_producer_iter : Nat → FlaskG → FlaskG
  | 0, g => g
  | n + 1, g => get_producer_iter n (get_producer g).2

/-- C8: within one context, `get_producer` constructs at most once and is
idempotent — a repeated call returns the identical instance and leaves the
context unchanged; a first call on a fresh context constructs exactly one
producer and stores it; a call on a context that already holds a producer
returns it without constructing; and any number of calls runs the
constructor at most once. -/
theorem get_producer_constructs_once (g : FlaskG) :
    (get_producer (get_producer g).2 = ((get_producer g).1, (get_producer g).2)) ∧
    (g.producer = none →
      (get_producer g).2.constructions = g.constructions + 1 ∧
      (get_producer g).2.producer = some (get_producer g).1) ∧
    (∀ p, g.producer = some p → get_producer g = (p, g)) ∧
    (∀ n, (get_producer_iter n g).constructions ≤ g.constructions + 1) := by
  refine ⟨?_, ?_, ?_, ?_⟩
  · match hp : g.producer with
    | some p => simp [get_producer, hp]
    | none => simp [get_producer, hp]
  · intro h
    simp [get_producer, h]
  · intro p h
    simp [get_producer, h]
  · intro n
    have hfix : ∀ m g', g'.producer = some ((get_producer g').1) →
        get_producer_iter m g' = g' := by
      intro m
      induction m with
      | zero => intro g' _; rfl
      | succ k ih =>
          intro g' h
          have : (get_producer g').2 = g' := by
            match hp : g'.producer with
            | some p => simp [get_producer, hp]
            | none => rw [hp] at h; simp [get_producer, hp] at h
          rw [get_producer_iter, this]
          exact ih g' h
    match n with
    | 0 => simp [get_producer_iter]
    | Nat.succ k =>
        rw [get_producer_iter]
        match hp : g.producer with
        | some p =>
            have hstored : (get_producer g).2 = g := by simp [get_producer, hp]
            rw [hstored, hfix k g (by simp [get_producer, hp])]
            omega
        | none =>
            have h2 : (get_producer g).2 =
                ⟨some g.constructions, g.constructions + 1⟩ := by
              simp [get_producer, hp]
            rw [h2, hfix k _ (by simp [get_producer])]

/-- Witness for C8: on the fresh context `⟨none, 0⟩` the first call
constructs instance `0` and stores it, and five further calls leave the
context at exactly one construction. -/
theorem get_producer_constructs_once_witness :
    (get_producer (⟨none, 0⟩ : FlaskG)).2.constructions = 0 + 1 ∧
    (get_producer (⟨none, 0⟩ : FlaskG)).2.producer =
      some (get_producer (⟨none, 0⟩ : FlaskG)).1 ∧
    (get_producer_iter 5 (⟨none, 0⟩ : FlaskG)).constructions ≤ 0 + 1 :=
  ⟨((get_producer_constructs_once ⟨none, 0⟩).2.1 rfl).1,
    ((get_producer_constructs_once ⟨none, 0⟩).2.1 rfl).2,
    (get_producer_constructs_once ⟨none, 0⟩).2.2.2 5⟩

/-! ## `tasks/__init__.py` — `msg_handler`

Source:
```
def msg_handler(parsed):
    id_ = parsed["id"]
    threadctx.request_id = parsed["request_id"]
    if not id_:
        logger.error(...); return
    host = Host.query.get(id_)
    if host is None:
        logger.error(...); return
    logger.info(...)
    profile = SystemProfileSchema(strict=True).load(parsed["system_profile"]).data
    host._update_system_profile(profile)
    db.session.commit()
```
`parsed` is a decoded JSON object; `parsed[k]` raises `KeyError` when the
key is absent.  The database is reduced to the only column the handler
touches: a map from host id to the host's system-profile facts.
`SystemProfileSchema(...).load(...)` is an external validation collaborator
and is passed in as a function returning `Except`; a raised error from it
propagates out of the handler.  The metrics timing decorator has no
semantic effect and is omitted.  The model records the resulting database,
the number of `db.session.commit()` calls performed, and the exception
raised, if any. -/

inductive HandlerError where
  | keyError : String → HandlerError
  | spValidation : String → HandlerError
deriving DecidableEq

/-- Outcome of one `msg_handler` invocation: the database afterwards, how
many commits ran, and the exception that escaped (if any). -/
structure HResult where
  db : List (Val × Val)
  commits : Nat
  raised : Option HandlerError
deriving DecidableEq

def msg_handler (validate : Val → Except String Val) (db : List (Val × Val))
    (parsed : List (String × Val)) : HResult :=
  match parsed.lookup "id" with
  | none => ⟨db, 0, some (.keyError "id")⟩
  | some id_ =>
    match parsed.lookup "request_id" with
    | none => ⟨db, 0, some (.keyError "request_id")⟩
    | some _rid =>
      if id_.falsy then ⟨db, 0, none⟩
      else
        match db.lookup id_ with
        | none => ⟨db, 0, none⟩
        | some _host =>
          match parsed.lookup "system_profile" with
          | none => ⟨db, 0, some (.keyError "system_profile")⟩
          | some sp =>
            match validate sp with
            | .error e => ⟨db, 0, some (.spValidation e)⟩
            | .ok profile => ⟨assocSet db id_ profile, 1, none⟩

/-- C10: a decoded message lacking the `id` key (or, with `id` present,
lacking the `request_id` key) makes `msg_handler` raise `KeyError` with no
commit and the database untouched — for every database, i.e. before any
host lookup; the log-and-drop path (return with no commit and no
exception) is taken only when `id` is present but null/empty. -/
theorem msg_handler_missing_keys_raise (v : Val → Except String Val)
    (db : List (Val × Val)) (parsed : List (String × Val)) :
    (parsed.lookup "id" = none →
      msg_handler v db parsed = ⟨db, 0, some (.keyError "id")⟩) ∧
    (∀ i, parsed.lookup "id" = some i → parsed.lookup "request_id" = none →
      msg_handler v db parsed = ⟨db, 0, some (.keyError "request_id")⟩) ∧
    (∀ i r, parsed.lookup "id" = some i → i.falsy = true →
      parsed.lookup "request_id" = some r →
      msg_handler v db parsed = ⟨db, 0, none⟩) := by
  refine ⟨?_, ?_, ?_⟩
  · intro h
    simp [msg_handler, h]
  · intro i h1 h2
    simp [msg_handler, h1, h2]
  · intro i r h1 hf h2
    simp [msg_handler, h1, h2, hf]

/-- Witness for C10: on the message `{"request_id": "r1"}` (no `id` key)
the handler raises `KeyError("id")` over a nonempty database, and on
`{"id": "", "request_id": "r1"}` it drops the message without exception. -/
theorem msg_handler_missing_keys_raise_witness :
    msg_handler (fun sp => .ok sp) [(.vstr "h1", .vobj [])]
      [("request_id", .vstr "r1")] =
      ⟨[(.vstr "h1", .vobj [])], 0, some (.keyError "id")⟩ ∧
    msg_handler (fun sp => .ok sp) [(.vstr "h1", .vobj [])]
      [("id", .vstr ""), ("request_id", .vstr "r1")] =
      ⟨[(.vstr "h1", .vobj [])], 0, none⟩ :=
  ⟨(msg_handler_missing_keys_raise (fun sp => .ok sp) [(.vstr "h1", .vobj [])]
      [("request_id", .vstr "r1")]).1 (by decide),
    (msg_handler_missing_keys_raise (fun sp => .ok sp) [(.vstr "h1", .vobj [])]
      [("id", .vstr ""), ("request_id", .vstr "r1")]).2.2
      (.vstr "") (.vstr "r1") (by decide) (by decide) (by decide)⟩

/-- C2: `msg_handler` commits exactly once precisely when the message has a
truthy `id` naming an existing host and its `system_profile` passes
validation (and the `request_id` and `system_profile` keys are present at
all); on that path the host's profile is replaced.  On every other path —
null/empty id, unknown host, missing key, or validation failure (which
propagates as a raised exception) — it commits zero times and leaves the
database unmodified. -/
theorem msg_handler_commit_paths (v : Val → Except String Val)
    (db : List (Val × Val)) (parsed : List (String × Val)) :
    ((msg_handler v db parsed).commits = 1 ↔
      ∃ i rid sp p, parsed.lookup "id" = some i ∧ i.falsy = false ∧
        parsed.lookup "request_id" = some rid ∧ (db.lookup i).isSome ∧
        parsed.lookup "system_profile" = some sp ∧ v sp = .ok p) ∧
    (∀ i rid sp p, parsed.lookup "id" = some i → i.falsy = false →
      parsed.lookup "request_id" = some rid → (db.lookup i).isSome →
      parsed.lookup "system_profile" = some sp → v sp = .ok p →
      msg_handler v db parsed = ⟨assocSet db i p, 1, none⟩) ∧
    (∀ i rid, parsed.lookup "id" = some i → i.falsy = false →
      parsed.lookup "request_id" = some rid → db.lookup i = none →
      msg_handler v db parsed = ⟨db, 0, none⟩) ∧
    (∀ i rid sp e, parsed.lookup "id" = some i → i.falsy = false →
      parsed.lookup "request_id" = some rid → (db.lookup i).isSome →
      parsed.lookup "system_profile" = some sp → v sp = .error e →
      msg_handler v db parsed = ⟨db, 0, some (.spValidation e)⟩) ∧
    ((msg_handler v db parsed).commits = 0 ∨
      (msg_handler v db parsed).commits = 1) ∧
    ((msg_handler v db parsed).commits = 0 →
      (msg_handler v db parsed).db = db) := by
  have hshape : (msg_handler v db parsed).commits = 1 →
      ∃ i rid sp p, parsed.lookup "id" = some i ∧ i.falsy = false ∧
        parsed.lookup "request_id" = some rid ∧ (db.lookup i).isSome ∧
        parsed.lookup "system_profile" = some sp ∧ v sp = .ok p := by
    intro h
    match h1 : parsed.lookup "id" with
    | none => simp [msg_handler, h1] at h
    | some i =>
      match h2 : parsed.lookup "request_id" with
      | none => simp [msg_handler, h1, h2] at h
      | some rid =>
        match hf : i.falsy with
        | true => simp [msg_handler, h1, h2, hf] at h
        | false =>
          match h3 : db.lookup i with
          | none => simp [msg_handler, h1, h2, hf, h3] at h
          | some host =>
            match h4 : parsed.lookup "system_profile" with
            | none => simp [msg_handler, h1, h2, hf, h3, h4] at h
            | some sp =>
              match h5 : v sp with
              | .error e => simp [msg_handler, h1, h2, hf, h3, h4, h5] at h
              | .ok p =>
                  exact ⟨i, rid, sp, p, rfl, hf, rfl, by simp [h3], rfl, h5⟩
  refine ⟨⟨hshape, ?_⟩, ?_, ?_, ?_, ?_, ?_⟩
  · rintro ⟨i, rid, sp, p, h1, hf, h2, h3, h4, h5⟩
    obtain ⟨host, h3'⟩ := Option.isSome_iff_exists.mp h3
    simp [msg_handler, h1, h2, hf, h3', h4, h5]
  · intro i rid sp p h1 hf h2 h3 h4 h5
    obtain ⟨host, h3'⟩ := Option.isSome_iff_exists.mp h3
    simp [msg_handler, h1, h2, hf, h3', h4, h5]
  · intro i rid h1 hf h2 h3
    simp [msg_handler, h1, h2, hf, h3]
  · intro i rid sp e h1 hf h2 h3 h4 h5
    obtain ⟨host, h3'⟩ := Option.isSome_iff_exists.mp h3
    simp [msg_handler, h1, h2, hf, h3', h4, h5]
  · match h1 : parsed.lookup "id" with
    | none => simp [msg_handler, h1]
    | some i =>
      match h2 : parsed.lookup "request_id" with
      | none => simp [msg_handler, h1, h2]
      | some rid =>
        match hf : i.falsy with
        | true => simp [msg_handler, h1, h2, hf]
        | false =>
          match h3 : db.lookup i with
          | none => simp [msg_handler, h1, h2, hf, h3]
          | some host =>
            match h4 : parsed.lookup "system_profile" with
            | none => simp [msg_handler, h1, h2, hf, h3, h4]
            | some sp =>
              match h5 : v sp with
              | .error e => simp [msg_handler, h1, h2, hf, h3, h4, h5]
              | .ok p => simp [msg_handler, h1, h2, hf, h3, h4, h5]
  · intro h
    match h1 : parsed.lookup "id" with
    | none => simp [msg_handler, h1]
    | some i =>
      match h2 : parsed.lookup "request_id" with
      | none => simp [msg_handler, h1, h2]
      | some rid =>
        match hf : i.falsy with
        | true => simp [msg_handler, h1, h2, hf]
        | false =>
          match h3 : db.lookup i with
          | none => simp [msg_handler, h1, h2, hf, h3]
          | some host =>
            match h4 : parsed.lookup "system_profile" with
            | none => simp [msg_handler, h1, h2, hf, h3, h4]
            | some sp =>
              match h5 : v sp with
              | .error e => simp [msg_handler, h1, h2, hf, h3, h4, h5]
              | .ok p => simp [msg_handler, h1, h2, hf, h3, h4, h5] at h

/-- Witness for C2: with a permissive validator, a database holding host
`h1`, and the message `{"id": "h1", "request_id": "r1", "system_profile":
{"number_of_cpus": 1}}`, the handler commits exactly once and replaces the
profile; with an unknown host id `h9` it returns with zero commits. -/
theorem msg_handler_commit_paths_witness :
    msg_handler (fun sp => .ok sp) [(.vstr "h1", .vobj [])]
      [("id", .vstr "h1"), ("request_id", .vstr "r1"),
        ("system_profile", .vobj [("number_of_cpus", .vint 1)])] =
      ⟨[(.vstr "h1", .vobj [("number_of_cpus", .vint 1)])], 1, none⟩ ∧
    msg_handler (fun sp => .ok sp) [(.vstr "h1", .vobj [])]
      [("id", .vstr "h9"), ("request_id", .vstr "r1"),
        ("system_profile", .vobj [])] =
      ⟨[(.vstr "h1", .vobj [])], 0, none⟩ :=
  ⟨(msg_handler_commit_paths (fun sp => .ok sp) [(.vstr "h1", .vobj [])]
      [("id", .vstr "h1"), ("request_id", .vstr "r1"),
        ("system_profile", .vobj [("number_of_cpus", .vint 1)])]).2.1
      (.vstr "h1") (.vstr "r1") (.vobj [("number_of_cpus", .vint 1)])
      (.vobj [("number_of_cpus", .vint 1)])
      (by decide) (by decide) (by decide) (by decide) (by decide) rfl,
    (msg_handler_commit_paths (fun sp => .ok sp) [(.vstr "h1", .vobj [])]
      [("id", .vstr "h9"), ("request_id", .vstr "r1"),
        ("system_profile", .vobj [])]).2.2.1
      (.vstr "h9") (.vstr "r1") (by decide) (by decide) (by decide) (by decide)⟩

/-! ## `tasks/__init__.py` — the consumer loop of `start_consumer`

Source (the body `_f` runs on a daemon thread):
```
while True:
    for msg in consumer:
        try:
            with metrics.system_profile_deserialization_time.time():
                data = json.loads(msg.value)
            handler(data)
            metrics.system_profile_commit_count.inc()
        except Exception:
            logger.exception("uncaught exception in handler, moving on.")
            metrics.system_profile_failure_count.inc()
```
`json.loads` is an external collaborator and is passed in as a `decode`
function returning `Except`; the `try/except Exception` catches both a
decode failure and anything raised by the handler.  One pass of the loop
over a finite batch of raw messages is a left fold of `loopStep`; the loop
state carries the database plus the two metric counters
(`system_profile_commit_count` and `system_profile_failure_count`). -/
structure CState where
  db : List (Val × Val)
  successes : Nat
  failures : Nat
deriving DecidableEq

/-- One iteration of the consumer loop body on one raw message: decode,
dispatch to `msg_handler`, count a success, and on any exception log,
count a failure and move on. -/
def loopStep (decode : String → Except String (List (String × Val)))
    (validate : Val → Except String Val) (st : CState) (raw : String) : CState :=
  match decode raw with
  | .error _ => { st with failures := st.failures + 1 }
  | .ok parsed =>
    let r := msg_handler validate st.db parsed
    match r.raised with
    | some _ => { st with db := r.db, failures := st.failures + 1 }
    | none => { st with db := r.db, successes := st.successes + 1 }

/-- The consumer loop run over a finite batch of inbound raw messages. -/
def consumeAll (decode : String → Except String (List (String × Val)))
    (validate : Val → Except String Val) (st : CState) (msgs : List String) :
    CState :=
  msgs.foldl (loopStep decode validate) st

theorem loopStep_count (decode : String → Except String (List (String × Val)))
    (validate : Val → Except String Val) (st : CState) (raw : String) :
    (loopStep decode validate st raw).successes +
      (loopStep decode validate st raw).failures =
      st.successes + st.failures + 1 := by
  match hd : decode raw with
  | .error e =>
      simp only [loopStep, hd]
      omega
  | .ok parsed =>
      match hr : (msg_handler validate st.db parsed).raised with
      | some err =>
          simp only [loopStep, hd, hr]
          omega
      | none =>
          simp only [loopStep, hd, hr]
          omega

/-- Concrete scenario collaborator: a decode table standing for
`json.loads` on four concrete inbound messages; `m2raw` is malformed JSON
and fails to decode, `m5raw` decodes to a message with no `id` key. -/
def scenarioDecode : String → Except String (List (String × Val))
  | "m1raw" => .ok [("id", .vstr "host1"), ("request_id", .vstr "r1"),
      ("system_profile", .vobj [("number_of_cpus", .vint 1)])]
  | "m2raw" => .error "Expecting value: line 1 column 1 (char 0)"
  | "m3raw" => .ok [("id", .vstr "host9"), ("request_id", .vstr "r3"),
      ("system_profile", .vobj [])]
  | "m4raw" => .ok [("id", .vstr "host4"), ("request_id", .vstr "r4"),
      ("system_profile", .vobj [("arch", .vstr "x86_64")])]
  | "m5raw" => .ok [("request_id", .vstr "r5")]
  | _ => .error "Expecting value: line 1 column 1 (char 0)"

/-- Concrete scenario collaborator: a system-profile schema that accepts
the (well-formed) profiles appearing in the scenario unchanged. -/
def scenarioValidate : Val → Except String Val := fun sp => .ok sp

/-- Concrete scenario database: hosts `host1` and `host4` exist, `host9`
does not. -/
def scenarioDb : List (Val × Val) :=
  [(.vstr "host1", .vobj []), (.vstr "host4", .vobj [])]

/-- C1: the consumer loop processes inbound messages one at a time and no
single message stops it.  Conjuncts: (i) one message is consumed per
iteration; (ii) a batch splits into sequential passes, so processing
continues into the suffix whatever happened in the prefix; (iii) every
message in a batch is accounted for as exactly one success or one failure
metric — the loop never exits early; (iv) a message that fails to decode
only increments the failure counter and the loop state otherwise survives
intact; (v) an exception escaping the handler is caught, counted, and the
loop state otherwise survives; (vi) in the concrete four-message scenario
where message 2 is malformed JSON and message 3 targets a nonexistent
host, the valid messages 1 and 4 still get their profiles committed. -/
theorem consumer_loop_poison_resilient :
    (∀ d v st raw (rest : List String),
      consumeAll d v st (raw :: rest) = consumeAll d v (loopStep d v st raw) rest) ∧
    (∀ d v st (ms₁ ms₂ : List String),
      consumeAll d v st (ms₁ ++ ms₂) = consumeAll d v (consumeAll d v st ms₁) ms₂) ∧
    (∀ d v st (msgs : List String),
      (consumeAll d v st msgs).successes + (consumeAll d v st msgs).failures =
        st.successes + st.failures + msgs.length) ∧
    (∀ d v st raw e, d raw = .error e →
      loopStep d v st raw = ⟨st.db, st.successes, st.failures + 1⟩) ∧
    (∀ d v st raw parsed err, d raw = .ok parsed →
      (msg_handler v st.db parsed).raised = some err →
      loopStep d v st raw =
        ⟨(msg_handler v st.db parsed).db, st.successes, st.failures + 1⟩) ∧
    (consumeAll scenarioDecode scenarioValidate ⟨scenarioDb, 0, 0⟩
        ["m1raw", "m2raw", "m3raw", "m4raw"] =
      ⟨[(.vstr "host1", .vobj [("number_of_cpus", .vint 1)]),
        (.vstr "host4", .vobj [("arch", .vstr "x86_64")])], 3, 1⟩) := by
  refine ⟨fun d v st raw rest => rfl, ?_, ?_, ?_, ?_, by decide⟩
  · intro d v st ms₁ ms₂
    simp [consumeAll, List.foldl_append]
  · intro d v st msgs
    induction msgs generalizing st with
    | nil => simp [consumeAll]
    | cons hd tl ih =>
        have h1 := ih (loopStep d v st hd)
        have h2 := loopStep_count d v st hd
        simp only [consumeAll, List.foldl_cons] at h1 ⊢
        rw [h1]
        simp only [List.length_cons]
        omega
  · intro d v st raw e h
    simp [loopStep, h]
  · intro d v st raw parsed err h hr
    simp [loopStep, h, hr]

/-- Witness for C1 discharging its hypotheses concretely: the malformed
message `m2raw` only bumps the failure counter (conjunct iv), and `m5raw`,
whose handler raises `KeyError("id")`, is likewise caught and counted
(conjunct v) — in both cases the database survives and the loop goes on. -/
theorem consumer_loop_poison_resilient_witness :
    loopStep scenarioDecode scenarioValidate ⟨scenarioDb, 1, 0⟩ "m2raw" =
      ⟨scenarioDb, 1, 1⟩ ∧
    loopStep scenarioDecode scenarioValidate ⟨scenarioDb, 0, 0⟩ "m5raw" =
      ⟨scenarioDb, 0, 1⟩ :=
  ⟨consumer_loop_poison_resilient.2.2.2.1 scenarioDecode scenarioValidate
      ⟨scenarioDb, 1, 0⟩ "m2raw" "Expecting value: line 1 column 1 (char 0)"
      rfl,
    ((consumer_loop_poison_resilient.2.2.2.2.1 scenarioDecode scenarioValidate
      ⟨scenarioDb, 0, 0⟩ "m5raw" [("request_id", .vstr "r5")]
      (.keyError "id") rfl (by decide)).trans (by decide))⟩

/-! ## `app/serialization.py` — the Facts Normalizer

Modelled from the spec: `app/serialization.py` is not under the source
tree given here; `_deserialize_facts` is reconstructed from section 4.2 of
the specification and from its unit tests
(`SerializationDeserializeFactsTestCase` in `src/test_unit.py`), which pin
the observable behavior:

* `None` input yields an empty mapping (`test_none_becomes_empty_dict`);
* an item missing the `namespace` or the `facts` key raises the input
  format error (`test_missing_key_raises_exception`);
* a fresh namespace stores its `facts` value as given — including `{}`
  and, per `test_empty_namespaces_remain_unchanged`, including `null`;
* a repeated namespace is merged with `dict.update`, later occurrences
  winning key-by-key (`test_duplicate_namespaces_are_merged`).

`dict.update` on a stored non-dict value (e.g. a stored `null`) would
raise `AttributeError` in Python, and updating a dict with a non-dict
argument would raise `TypeError`; both are modelled as distinct errors. -/

inductive FactsError where
  | inputFormat : FactsError
  | attrError : FactsError
  | typeError : FactsError
deriving DecidableEq

/-- Python `a.update(b)` for string-keyed dicts: existing keys keep their
position and take `b`'s value; keys new in `b` are appended in `b`'s
order. -/
def dictUpdate (a b : List (String × Val)) : List (String × Val) :=
  a.map (fun kv => (kv.1, (b.lookup kv.1).getD kv.2)) ++
    b.filter (fun kv => (a.lookup kv.1).isNone)

/-- Store one facts item into the accumulated namespace map: a fresh
namespace is appended with its facts value unchanged; a repeated namespace
merges via `dict.update`. -/
def storeFact (acc : List (Val × Val)) (ns fv : Val) :
    Except FactsError (List (Val × Val)) :=
  match acc.lookup ns with
  | none => .ok (acc ++ [(ns, fv)])
  | some stored =>
    match stored, fv with
    | .vobj a, .vobj b => .ok (assocSet acc ns (.vobj (dictUpdate a b)))
    | .vobj _, _ => .error .typeError
    | _, _ => .error .attrError

/-- The loop of `_deserialize_facts` over the remaining items, carrying
the accumulated namespace map. -/
def deserializeFactsFrom (acc : List (Val × Val)) :
    List (List (String × Val)) → Except FactsError (List (Val × Val))
  | [] => .ok acc
  | item :: rest =>
    match item.lookup "namespace", item.lookup "facts" with
    | some ns, some fv =>
      match storeFact acc ns fv with
      | .error e => .error e
      | .ok acc' => deserializeFactsFrom acc' rest
    | _, _ => .error .inputFormat

/-- `_deserialize_facts(data)`: `None` → empty mapping; otherwise fold the
items into a namespace-keyed mapping. -/
def deserialize_facts (data : Option (List (List (String × Val)))) :
    Except FactsError (List (Val × Val)) :=
  deserializeFactsFrom [] (data.getD [])

/-- An item is well-formed for the merge law when it has a `namespace` key
and a `facts` key holding an object. -/
def itemWF (item : List (String × Val)) : Bool :=
  match item.lookup "namespace", item.lookup "facts" with
  | some _, some (.vobj _) => true
  | _, _ => false

/-- An item merely has both required keys (its `facts` value may be
anything, e.g. `null`). -/
def itemKeysWF (item : List (String × Val)) : Bool :=
  (item.lookup "namespace").isSome && (item.lookup "facts").isSome

/-- The namespaces named by a list of items, in order of appearance. -/
def itemNss (items : List (List (String × Val))) : List Val :=
  items.filterMap (fun item => item.lookup "namespace")

/-- The (namespace, facts) pair an item denotes. -/
def itemPair (item : List (String × Val)) : Val × Val :=
  ((item.lookup "namespace").getD .vnull, (item.lookup "facts").getD .vnull)

/-- Accumulate, over the items, the value the key `k` of namespace `ns`
ends up with: a later occurrence of `ns` that defines `k` overrides. -/
def lastValStep (ns : Val) (k : String) (acc : Option Val)
    (item : List (String × Val)) : Option Val :=
  match item.lookup "namespace", item.lookup "facts" with
  | some n, some (.vobj kvs) => if n = ns then (kvs.lookup k).or acc else acc
  | _, _ => acc

/-- The value the latest occurrence of namespace `ns` that defines key `k`
assigns to it, across all items; `none` when no occurrence defines `k`. -/
def lastVal (items : List (List (String × Val))) (ns : Val) (k : String) :
    Option Val :=
  items.foldl (lastValStep ns k) none

/-- The value of key `k` in the facts object stored for namespace `ns`. -/
def objLookup (m : List (Val × Val)) (ns : Val) (k : String) : Option Val :=
  match m.lookup ns with
  | some (.vobj kvs) => kvs.lookup k
  | _ => none

theorem lookup_isNone_iff {α β : Type} [BEq α] [LawfulBEq α]
    (l : List (α × β)) (k : α) :
    l.lookup k = none ↔ k ∉ l.map Prod.fst := by
  induction l with
  | nil => simp [List.lookup]
  | cons hd tl ih =>
      obtain ⟨k₀, v₀⟩ := hd
      by_cases hk : k == k₀
      · rw [beq_iff_eq] at hk
        subst hk
        simp [List.lookup]
      · have : k ≠ k₀ := by
          intro hc
          exact hk (by simp [hc])
        simp [List.lookup, hk, ih, this]

theorem mem_assocSet {α β : Type} [BEq α] (l : List (α × β)) (k : α) (v : β)
    (p : α × β) (h : p ∈ assocSet l k v) : p ∈ l ∨ p.2 = v := by
  induction l with
  | nil => simp [assocSet] at h
  | cons hd tl ih =>
      obtain ⟨k₀, v₀⟩ := hd
      by_cases hk : k₀ == k
      · simp only [assocSet, hk, if_true] at h
        rcases List.mem_cons.mp h with heq | htl
        · right
          rw [heq]
        · left
          exact List.mem_cons_of_mem _ htl
      · simp only [assocSet, hk, if_false] at h
        rcases List.mem_cons.mp h with heq | htl
        · left
          rw [heq]
          exact List.mem_cons_self _ _
        · rcases ih htl with hl | hv
          · exact Or.inl (List.mem_cons_of_mem _ hl)
          · exact Or.inr hv

theorem lookup_map_update (a b : List (String × Val)) (k : String) :
    (a.map (fun kv => (kv.1, (b.lookup kv.1).getD kv.2))).lookup k =
      (a.lookup k).map (fun v => (b.lookup k).getD v) := by
  induction a with
  | nil => rfl
  | cons hd tl ih =>
      obtain ⟨k₀, v₀⟩ := hd
      by_cases hk : k == k₀
      · rw [beq_iff_eq] at hk
        subst hk
        simp [List.lookup]
      · have hkb : ¬(k == k₀) := hk
        simp only [List.map_cons, List.lookup, hkb]
        simpa [hkb] using ih

theorem lookup_filter_key (b : List (String × Val)) (p : String → Bool)
    (k : String) (hp : p k = true) :
    (b.filter (fun kv => p kv.1)).lookup k = b.lookup k := by
  induction b with
  | nil => rfl
  | cons hd tl ih =>
      obtain ⟨k₀, v₀⟩ := hd
      by_cases hk : k == k₀
      · rw [beq_iff_eq] at hk
        subst hk
        simp [List.filter, hp, List.lookup]
      · match hpk : p k₀ with
        | true => simp [List.filter, hpk, List.lookup, hk, ih]
        | false => simp [List.filter, hpk, List.lookup, hk, ih]

theorem dictUpdate_lookup (a b : List (String × Val)) (k : String) :
    (dictUpdate a b).lookup k = (b.lookup k).or (a.lookup k) := by
  rw [dictUpdate, lookup_append, lookup_map_update]
  match ha : a.lookup k with
  | none =>
      rw [lookup_filter_key b (fun x => (a.lookup x).isNone) k (by simp [ha])]
      simp
  | some va =>
      match hb : b.lookup k with
      | none => simp
      | some vb => simp

theorem lastVal_from (ns : Val) (k : String)
    (l : List (List (String × Val))) (a : Option Val) :
    l.foldl (lastValStep ns k) a = (l.foldl (lastValStep ns k) none).or a := by
  induction l generalizing a with
  | nil => simp
  | cons hd tl ih =>
      have hstep : ∀ x, lastValStep ns k x hd = (lastValStep ns k none hd).or x := by
        intro x
        match h1 : hd.lookup "namespace", h2 : hd.lookup "facts" with
        | some n, some (.vobj kvs) =>
            by_cases hn : n = ns <;>
              simp [lastValStep, h1, h2, hn, Option.or_assoc]
        | some n, some .vnull => simp [lastValStep, h1, h2]
        | some n, some (.vbool _) => simp [lastValStep, h1, h2]
        | some n, some (.vint _) => simp [lastValStep, h1, h2]
        | some n, some (.vstr _) => simp [lastValStep, h1, h2]
        | some n, some (.vlist _) => simp [lastValStep, h1, h2]
        | some n, none => simp [lastValStep, h1, h2]
        | none, _ => simp [lastValStep, h1]
      rw [List.foldl_cons, List.foldl_cons, ih (lastValStep ns k a hd),
        ih (lastValStep ns k none hd), hstep a, ← Option.or_assoc]

theorem mem_of_lookup {α β : Type} [BEq α] [LawfulBEq α]
    (l : List (α × β)) (k : α) (v : β) (h : l.lookup k = some v) : (k, v) ∈ l := by
  induction l with
  | nil => simp [List.lookup] at h
  | cons hd tl ih =>
      obtain ⟨k₀, v₀⟩ := hd
      by_cases hk : k == k₀
      · rw [beq_iff_eq] at hk
        subst hk
        simp only [List.lookup, beq_self_eq_true] at h
        rw [Option.some_inj] at h
        subst h
        exact List.mem_cons_self _ _
      · simp only [List.lookup, hk] at h
        exact List.mem_cons_of_mem _ (ih (by simpa using h))

theorem deserializeFrom_ok (items : List (List (String × Val))) :
    ∀ acc : List (Val × Val),
    (∀ item ∈ items, itemWF item = true) →
    (∀ p ∈ acc, ∃ kvs, p.2 = Val.vobj kvs) →
    ((acc.map Prod.fst).Nodup) →
    ∃ m, deserializeFactsFrom acc items = .ok m ∧
      (∀ p ∈ m, ∃ kvs, p.2 = Val.vobj kvs) ∧
      ((m.map Prod.fst).Nodup) ∧
      (∀ ns, (m.lookup ns).isSome ↔
        ((acc.lookup ns).isSome ∨ ns ∈ itemNss items)) ∧
      (∀ ns k, objLookup m ns k =
        (lastVal items ns k).or (objLookup acc ns k)) := by
  induction items with
  | nil =>
      intro acc hWF hObj hNodup
      refine ⟨acc, rfl, hObj, hNodup, by simp [itemNss], ?_⟩
      intro ns k
      simp [lastVal]
  | cons item rest ih =>
      intro acc hWF hObj hNodup
      have hitem : itemWF item = true := hWF item (List.mem_cons_self _ _)
      have hWFrest : ∀ it ∈ rest, itemWF it = true := by
        intro it hit
        exact hWF it (List.mem_cons_of_mem _ hit)
      rcases hlk1 : item.lookup "namespace" with _ | ns₀
      · rw [itemWF, hlk1] at hitem
        exact absurd hitem (by simp)
      rcases hlk2 : item.lookup "facts" with _ | fv
      · rw [itemWF, hlk1, hlk2] at hitem
        exact absurd hitem (by simp)
      cases fv with
      | vnull => rw [itemWF, hlk1, hlk2] at hitem; exact absurd hitem (by simp)
      | vbool x => rw [itemWF, hlk1, hlk2] at hitem; exact absurd hitem (by simp)
      | vint x => rw [itemWF, hlk1, hlk2] at hitem; exact absurd hitem (by simp)
      | vstr x => rw [itemWF, hlk1, hlk2] at hitem; exact absurd hitem (by simp)
      | vlist x => rw [itemWF, hlk1, hlk2] at hitem; exact absurd hitem (by simp)
      | vobj b =>
        have hnss : itemNss (item :: rest) = ns₀ :: itemNss rest := by
          simp [itemNss, hlk1]
        have hlast : ∀ ns k, lastVal (item :: rest) ns k =
            (lastVal rest ns k).or
              (if ns₀ = ns then (b.lookup k).or none else none) := by
          intro ns k
          rw [lastVal, List.foldl_cons, lastVal_from]
          congr 1
          rw [lastValStep, hlk1, hlk2]
        match hacc : acc.lookup ns₀ with
        | none =>
          have hnotin : ns₀ ∉ acc.map Prod.fst := (lookup_isNone_iff acc ns₀).mp hacc
          have hstore : storeFact acc ns₀ (.vobj b) =
              .ok (acc ++ [(ns₀, .vobj b)]) := by
            simp [storeFact, hacc]
          have hObj' : ∀ p ∈ acc ++ [(ns₀, Val.vobj b)],
              ∃ kvs, p.2 = Val.vobj kvs := by
            intro p hp
            rcases List.mem_append.mp hp with h | h
            · exact hObj p h
            · simp only [List.mem_singleton] at h
              subst h
              exact ⟨b, rfl⟩
          have hNodup' : (((acc ++ [(ns₀, Val.vobj b)]).map Prod.fst).Nodup) := by
            rw [List.map_append]
            refine List.Nodup.append hNodup (by simp) ?_
            intro x hx hmem
            simp only [List.map_cons, List.map_nil, List.mem_singleton] at hmem
            subst hmem
            exact hnotin hx
          have hsing : ∀ ns : Val,
              ([(ns₀, Val.vobj b)] : List (Val × Val)).lookup ns =
                if ns = ns₀ then some (.vobj b) else none := by
            intro ns
            by_cases h : ns = ns₀
            · subst h
              simp [List.lookup]
            · have hb : (ns == ns₀) = false := by
                rw [beq_eq_false_iff_ne]
                exact h
              simp [List.lookup, hb, h]
          obtain ⟨m, hrun, hmObj, hmNodup, hmSome, hmLook⟩ :=
            ih (acc ++ [(ns₀, .vobj b)]) hWFrest hObj' hNodup'
          refine ⟨m, ?_, hmObj, hmNodup, ?_, ?_⟩
          · simp only [deserializeFactsFrom, hlk1, hlk2, hstore]
            exact hrun
          · intro ns
            rw [hmSome ns, lookup_append, hsing ns, hnss]
            by_cases h : ns = ns₀
            · subst h
              simp [hacc]
            · simp [h, List.mem_cons]
          · intro ns k
            rw [hmLook ns k, hlast ns k]
            by_cases h : ns = ns₀
            · subst h
              have h1 : objLookup (acc ++ [(ns, Val.vobj b)]) ns k =
                  b.lookup k := by
                simp [objLookup, lookup_append, hsing ns, hacc]
              have h2 : objLookup acc ns k = none := by
                simp [objLookup, hacc]
              rw [h1, h2, if_pos rfl]
              simp [Option.or_assoc]
            · have hne : ¬(ns₀ = ns) := fun hc => h hc.symm
              have h1 : objLookup (acc ++ [(ns₀, Val.vobj b)]) ns k =
                  objLookup acc ns k := by
                rw [objLookup, objLookup, lookup_append, hsing ns, if_neg h,
                  Option.or_none]
              rw [h1, if_neg hne, Option.or_none]
        | some stored =>
          obtain ⟨a, hstored⟩ :=
            hObj (ns₀, stored) (mem_of_lookup acc ns₀ stored hacc)
          simp only at hstored
          subst hstored
          have hstore : storeFact acc ns₀ (.vobj b) =
              .ok (assocSet acc ns₀ (.vobj (dictUpdate a b))) := by
            simp [storeFact, hacc]
          have hObj' : ∀ p ∈ assocSet acc ns₀ (.vobj (dictUpdate a b)),
              ∃ kvs, p.2 = Val.vobj kvs := by
            intro p hp
            rcases mem_assocSet acc ns₀ _ p hp with h | h
            · exact hObj p h
            · exact ⟨dictUpdate a b, h⟩
          have hNodup' :
              (((assocSet acc ns₀ (.vobj (dictUpdate a b))).map Prod.fst).Nodup) := by
            rw [assocSet_keys]
            exact hNodup
          have hlkSelf : (assocSet acc ns₀ (.vobj (dictUpdate a b))).lookup ns₀ =
              some (.vobj (dictUpdate a b)) :=
            lookup_assocSet_self acc ns₀ _ (by simp [hacc])
          have hlkOther : ∀ ns, ns ≠ ns₀ →
              (assocSet acc ns₀ (.vobj (dictUpdate a b))).lookup ns =
                acc.lookup ns := by
            intro ns h
            exact lookup_assocSet_other acc ns₀ ns _ (by simpa using h)
          obtain ⟨m, hrun, hmObj, hmNodup, hmSome, hmLook⟩ :=
            ih (assocSet acc ns₀ (.vobj (dictUpdate a b))) hWFrest hObj' hNodup'
          refine ⟨m, ?_, hmObj, hmNodup, ?_, ?_⟩
          · simp only [deserializeFactsFrom, hlk1, hlk2, hstore]
            exact hrun
          · intro ns
            rw [hmSome ns, hnss]
            by_cases h : ns = ns₀
            · subst h
              rw [hlkSelf]
              simp [hacc]
            · rw [hlkOther ns h]
              simp [h, List.mem_cons]
          · intro ns k
            rw [hmLook ns k, hlast ns k]
            by_cases h : ns = ns₀
            · subst h
              have h1 : objLookup (assocSet acc ns (Val.vobj (dictUpdate a b))) ns k =
                  (b.lookup k).or (a.lookup k) := by
                simp [objLookup, hlkSelf, dictUpdate_lookup]
              have h2 : objLookup acc ns k = a.lookup k := by
                simp [objLookup, hacc]
              rw [h1, h2, if_pos rfl]
              simp [Option.or_assoc]
            · have hne : ¬(ns₀ = ns) := fun hc => h hc.symm
              have h1 : objLookup (assocSet acc ns₀ (Val.vobj (dictUpdate a b))) ns k =
                  objLookup acc ns k := by
                rw [objLookup, objLookup, hlkOther ns h]
              rw [h1, if_neg hne, Option.or_none]

/-- The duplicate-namespace example from the specification:
`[{"namespace":"n","facts":{"a":1}}, {"namespace":"n","facts":{"b":2}}]`. -/
def dupNsExample : List (List (String × Val)) :=
  [[("namespace", .vstr "n"), ("facts", .vobj [("a", .vint 1)])],
    [("namespace", .vstr "n"), ("facts", .vobj [("b", .vint 2)])]]

/-- The duplicate-namespace input of
`test_duplicate_namespaces_are_merged` in `src/test_unit.py`. -/
def dupNsTestItems : List (List (String × Val)) :=
  [[("namespace", .vstr "first namespace"),
    ("facts", .vobj [("first key", .vstr "first value"),
      ("second key", .vstr "second value")])],
    [("namespace", .vstr "second namespace"),
      ("facts", .vobj [("third key", .vstr "third value")])],
    [("namespace", .vstr "first namespace"),
      ("facts", .vobj [("first key", .vstr "fourth value")])]]

/-- C3: on a facts list whose items each carry a namespace and an object
of facts, `_deserialize_facts` succeeds and produces one entry per
namespace (keys are duplicate-free and exactly the namespaces that
occur); the entry for each namespace is an object, and its value at every
key equals the value given by the latest occurrence of that namespace
defining that key — so the key set is the union of all occurrences' keys
and collisions resolve per key, later wins, not by wholesale replacement.
The final conjunct checks the specification's concrete example. -/
theorem deserialize_facts_merges_duplicate_namespaces
    (items : List (List (String × Val)))
    (h : ∀ item ∈ items, itemWF item = true) :
    (∃ m, deserialize_facts (some items) = .ok m ∧
      ((m.map Prod.fst).Nodup) ∧
      (∀ ns, (m.lookup ns).isSome ↔ ns ∈ itemNss items) ∧
      (∀ ns, ns ∈ itemNss items → ∃ kvs, m.lookup ns = some (.vobj kvs)) ∧
      (∀ ns k, objLookup m ns k = lastVal items ns k)) ∧
    deserialize_facts (some dupNsExample) =
      .ok [(.vstr "n", .vobj [("a", .vint 1), ("b", .vint 2)])] := by
  refine ⟨?_, rfl⟩
  · obtain ⟨m, hrun, hObj, hNodup, hSome, hLook⟩ :=
      deserializeFrom_ok items [] h (by simp) (by simp)
    refine ⟨m, by simpa [deserialize_facts] using hrun, hNodup, ?_, ?_, ?_⟩
    · intro ns
      rw [hSome ns]
      simp [List.lookup]
    · intro ns hns
      have hs : (m.lookup ns).isSome := by
        rw [hSome ns]
        right
        exact hns
      match hm : m.lookup ns with
      | none => rw [hm] at hs; simp at hs
      | some w =>
          obtain ⟨kvs, hw⟩ := hObj (ns, w) (mem_of_lookup m ns w hm)
          simp only at hw
          exact ⟨kvs, by rw [hw]⟩
    · intro ns k
      rw [hLook ns k]
      simp [objLookup, List.lookup]

/-- Witness for C3 at the concrete input of the repository's
duplicate-namespace unit test. -/
theorem deserialize_facts_merges_duplicate_namespaces_witness :
    deserialize_facts (some dupNsExample) =
      .ok [(.vstr "n", .vobj [("a", .vint 1), ("b", .vint 2)])] ∧
    (∃ m, deserialize_facts (some dupNsTestItems) = .ok m ∧
      (∀ ns k, objLookup m ns k = lastVal dupNsTestItems ns k)) :=
  ⟨(deserialize_facts_merges_duplicate_namespaces dupNsTestItems
      (by decide)).2,
    (by
      obtain ⟨⟨m, hrun, _, _, _, hLook⟩, _⟩ :=
        deserialize_facts_merges_duplicate_namespaces dupNsTestItems (by decide)
      exact ⟨m, hrun, hLook⟩)⟩

/-- The two-item input of `test_empty_namespaces_remain_unchanged` in
`src/test_unit.py`, in its `empty_facts = None` variant: the second
namespace carries `"facts": null`. -/
def emptyNsTestItems : List (List (String × Val)) :=
  [[("namespace", .vstr "first namespace"),
    ("facts", .vobj [("first key", .vstr "first value")])],
    [("namespace", .vstr "second namespace"), ("facts", .vnull)]]

/-- Counterexample to C4: a facts item whose `facts` value is `null` is
stored as `null`, not as the empty mapping — the deserialized result does
contain a namespace mapped to `null` (exactly what
`test_empty_namespaces_remain_unchanged` pins). -/
theorem deserialize_facts_null_kept_counterexample :
    deserialize_facts
        (some [[("namespace", .vstr "second namespace"), ("facts", .vnull)]]) =
      .ok [(.vstr "second namespace", .vnull)] ∧
    Val.vnull ≠ Val.vobj [] :=
  ⟨rfl, by decide⟩

/-- C4 (amended): `_deserialize_facts` stores each namespace's `facts`
value unchanged (when namespaces are pairwise distinct, so no merge
applies): an empty-object value stays `{}`, and a `null` value stays
`null` — it is not converted to `{}`, so the result may contain a
namespace mapped to `null`.  The second conjunct checks the unit test's
concrete input. -/
theorem deserialize_facts_value_stored_unchanged
    (items : List (List (String × Val)))
    (h1 : ∀ item ∈ items, itemKeysWF item = true)
    (h2 : (itemNss items).Nodup) :
    deserialize_facts (some items) = .ok (items.map itemPair) ∧
    deserialize_facts (some emptyNsTestItems) =
      .ok [(.vstr "first namespace", .vobj [("first key", .vstr "first value")]),
        (.vstr "second namespace", .vnull)] := by
  constructor
  · have main : ∀ (its : List (List (String × Val))) (acc : List (Val × Val)),
        (∀ item ∈ its, itemKeysWF item = true) → (itemNss its).Nodup →
        (∀ ns ∈ itemNss its, acc.lookup ns = none) →
        deserializeFactsFrom acc its = .ok (acc ++ its.map itemPair) := by
      intro its
      induction its with
      | nil =>
          intro acc _ _ _
          simp [deserializeFactsFrom]
      | cons item rest ih =>
          intro acc hk hnd hacc
          have hkit : itemKeysWF item = true := hk item (List.mem_cons_self _ _)
          rcases hns : item.lookup "namespace" with _ | ns₀
          · rw [itemKeysWF, hns] at hkit
            exact absurd hkit (by simp)
          rcases hfv : item.lookup "facts" with _ | fv
          · rw [itemKeysWF, hns, hfv] at hkit
            exact absurd hkit (by simp)
          have hnss : itemNss (item :: rest) = ns₀ :: itemNss rest := by
            simp [itemNss, hns]
          have haccns : acc.lookup ns₀ = none := by
            apply hacc
            rw [hnss]
            exact List.mem_cons_self _ _
          have hstore : storeFact acc ns₀ fv = .ok (acc ++ [(ns₀, fv)]) := by
            simp [storeFact, haccns]
          rw [hnss] at hnd
          have hnotin : ns₀ ∉ itemNss rest := (List.nodup_cons.mp hnd).1
          have hrest := ih (acc ++ [(ns₀, fv)])
            (fun it hit => hk it (List.mem_cons_of_mem _ hit))
            (List.nodup_cons.mp hnd).2
            (by
              intro ns hnsr
              have hne : ¬(ns == ns₀) := by
                rw [beq_iff_eq]
                intro hc
                subst hc
                exact hnotin hnsr
              rw [lookup_append]
              rw [hacc ns (by rw [hnss]; exact List.mem_cons_of_mem _ hnsr)]
              simp [List.lookup, hne])
          simp only [deserializeFactsFrom, hns, hfv, hstore, hrest]
          simp [itemPair, hns, hfv]
    have := main items [] h1 h2 (by intro ns _; rfl)
    simpa [deserialize_facts] using this
  · rfl

/-- Witness for C4 at the concrete input of
`test_empty_namespaces_remain_unchanged`: the `null` facts value survives
deserialization unchanged. -/
theorem deserialize_facts_value_stored_unchanged_witness :
    deserialize_facts (some emptyNsTestItems) =
      .ok (emptyNsTestItems.map itemPair) :=
  (deserialize_facts_value_stored_unchanged emptyNsTestItems
    (by decide) (by decide)).1

/-! ## `app/serialization.py` — canonical facts and `deserialize_host`

Modelled from the spec: `serialize_canonical_facts`,
`_deserialize_canonical_facts` and `deserialize_host` live in
`app/serialization.py`, which is not under the source tree given here;
they are reconstructed from sections 4.3 and 4.4 of the specification and
from their unit tests in `src/test_unit.py`
(`SerializationSerializeCanonicalFactsTestCase`,
`SerializationDeserializeHostCompoundTestCase`,
`SerializationDeserializeCanonicalFactsTestCase`). -/

/-- The nine canonical-fact field names, a bit-exact external contract. -/
def canonical_fact_fields : List String :=
  ["insights_id", "rhel_machine_id", "subscription_manager_id",
    "satellite_id", "bios_uuid", "ip_addresses", "fqdn", "mac_addresses",
    "external_id"]

/-- `serialize_canonical_facts(mapping)`: the same nine keys, each
defaulted to `null` when absent from the input. -/
def serialize_canonical_facts (cf : List (String × Val)) :
    List (String × Val) :=
  canonical_fact_fields.map (fun f => (f, (cf.lookup f).getD .vnull))

/-- `_deserialize_canonical_facts(payload)`: copy each of the nine fields
that is present and truthy (non-null, non-empty string/sequence); omit the
rest; ignore unknown fields. -/
def deserialize_canonical_facts (d : List (String × Val)) :
    List (String × Val) :=
  canonical_fact_fields.filterMap (fun f =>
    match d.lookup f with
    | some v => if v.falsy then none else some (f, v)
    | none => none)

theorem lookup_map_self (fields : List String) (g : String → Val)
    (f : String) (h : f ∈ fields) :
    (fields.map (fun x => (x, g x))).lookup f = some (g f) := by
  induction fields with
  | nil => simp at h
  | cons hd tl ih =>
      by_cases hf : f == hd
      · rw [beq_iff_eq] at hf
        subst hf
        simp [List.lookup]
      · have hne : f ≠ hd := by
          intro hc
          exact hf (by simp [hc])
        rcases List.mem_cons.mp h with heq | htl
        · exact absurd heq hne
        · simp [List.lookup, hf, ih htl]

/-- C6: for every input mapping, `serialize_canonical_facts` returns a
mapping whose keys are exactly the nine canonical-fact field names in
order; each field present in the input keeps its value unchanged, each
absent field maps to `null`, and every entry of the output is of that
shape (so unknown input fields are ignored). -/
theorem serialize_canonical_facts_complete (cf : List (String × Val)) :
    ((serialize_canonical_facts cf).map Prod.fst = canonical_fact_fields) ∧
    (∀ f ∈ canonical_fact_fields,
      (serialize_canonical_facts cf).lookup f =
        some ((cf.lookup f).getD .vnull)) ∧
    (∀ f v, (f, v) ∈ serialize_canonical_facts cf →
      f ∈ canonical_fact_fields ∧ v = (cf.lookup f).getD .vnull) := by
  refine ⟨?_, ?_, ?_⟩
  · rw [serialize_canonical_facts, List.map_map]
    have hcomp : (Prod.fst ∘ fun f => (f, (cf.lookup f).getD Val.vnull)) =
        fun f : String => f := by
      funext x
      rfl
    rw [hcomp]
    exact List.map_id canonical_fact_fields
  · intro f hf
    exact lookup_map_self canonical_fact_fields _ f hf
  · intro f v hmem
    simp only [serialize_canonical_facts, List.mem_map] at hmem
    obtain ⟨x, hx, heq⟩ := hmem
    rw [Prod.mk.injEq] at heq
    obtain ⟨rfl, rfl⟩ := heq
    exact ⟨hx, rfl⟩

/-- Witness for C6 at a concrete input holding one known field and one
unknown field: the present field keeps its value, an absent field maps to
`null`. -/
theorem serialize_canonical_facts_complete_witness :
    (serialize_canonical_facts
        [("fqdn", .vstr "some fqdn"), ("extra", .vint 5)]).lookup "fqdn" =
      some ((([("fqdn", Val.vstr "some fqdn"), ("extra", Val.vint 5)]
        : List (String × Val)).lookup "fqdn").getD .vnull) ∧
    (serialize_canonical_facts
        [("fqdn", .vstr "some fqdn"), ("extra", .vint 5)]).lookup "insights_id" =
      some ((([("fqdn", Val.vstr "some fqdn"), ("extra", Val.vint 5)]
        : List (String × Val)).lookup "insights_id").getD .vnull) :=
  ⟨(serialize_canonical_facts_complete
      [("fqdn", .vstr "some fqdn"), ("extra", .vint 5)]).2.1 "fqdn" (by decide),
    (serialize_canonical_facts_complete
      [("fqdn", .vstr "some fqdn"), ("extra", .vint 5)]).2.1 "insights_id"
      (by decide)⟩

inductive DeserializeHostError where
  | validation : List String → DeserializeHostError
  | missingIdentity : DeserializeHostError
  | factsFormat : FactsError → DeserializeHostError
deriving DecidableEq

/-- The Host entity as assembled by `deserialize_host` (timestamps are
assigned by the persistence layer, not here). -/
structure Host where
  canonical_facts : List (String × Val)
  display_name : Val
  ansible_host : Val
  account : Val
  facts : List (Val × Val)
  tags : Val
  system_profile : Val
deriving DecidableEq

/-- The payload's facts list as handed to the Facts Normalizer: absent
(or non-list) becomes `None`; a list's items are their object contents. -/
def factsInput (d : List (String × Val)) :
    Option (List (List (String × Val))) :=
  match d.lookup "facts" with
  | some (.vlist items) => some (items.map (fun it =>
      match it with
      | .vobj kvs => kvs
      | _ => []))
  | _ => none

/-- Modelled from the spec: `HostSchema` is the external validation
collaborator of section 6 and its rule set lives outside this repository;
only the constraints its unit tests pin are modelled — `account` is
required and must be a string of length 1 to 10 (`test_with_invalid_input`
rejects `{}`, `{"account": ""}` and `{"account": "some account"}`), and
`fqdn`, when present, must be a string of length 1 to 255.  Validation
errors carry the offending field names; a valid payload is returned
unchanged. -/
def hostSchemaErrors (raw : List (String × Val)) : List String :=
  (match raw.lookup "account" with
    | some (.vstr s) => if 1 ≤ s.length ∧ s.length ≤ 10 then [] else ["account"]
    | some _ => ["account"]
    | none => ["account"]) ++
  (match raw.lookup "fqdn" with
    | none => []
    | some (.vstr s) => if 1 ≤ s.length ∧ s.length ≤ 255 then [] else ["fqdn"]
    | some _ => ["fqdn"])

def hostSchemaLoad (raw : List (String × Val)) :
    Except (List String) (List (String × Val)) :=
  match hostSchemaErrors raw with
  | [] => .ok raw
  | errs => .error errs

/-- Modelled from the spec (section 4.4): `deserialize_host` validates the
raw payload against the schema collaborator (failure → `ValidationError`
carrying the detail), extracts canonical facts from the validated payload
and fails with `MissingIdentityError` when none survive, normalizes the
facts list, and otherwise assembles the Host, defaulting `display_name`,
`ansible_host` and `account` to `null` when absent (an explicit empty
string for `ansible_host` is a present value and is preserved), `tags` to
the empty list and `system_profile` to `{}`. -/
def deserialize_host
    (validate : List (String × Val) → Except (List String) (List (String × Val)))
    (raw : List (String × Val)) : Except DeserializeHostError Host :=
  match validate raw with
  | .error errs => .error (.validation errs)
  | .ok d =>
    let cf := deserialize_canonical_facts d
    if cf.isEmpty then .error .missingIdentity
    else
      match deserialize_facts (factsInput d) with
      | .error e => .error (.factsFormat e)
      | .ok facts =>
        .ok { canonical_facts := cf,
              display_name := (d.lookup "display_name").getD .vnull,
              ansible_host := (d.lookup "ansible_host").getD .vnull,
              account := (d.lookup "account").getD .vnull,
              facts := facts,
              tags := (d.lookup "tags").getD (.vlist []),
              system_profile := (d.lookup "system_profile").getD (.vobj []) }

/-- Every canonical-fact field of the (validated) payload is absent,
empty, or null. -/
def canonicalAbsent (d : List (String × Val)) : Bool :=
  canonical_fact_fields.all (fun f =>
    match d.lookup f with
    | some v => v.falsy
    | none => true)

theorem canonicalAbsent_extract (d : List (String × Val))
    (h : canonicalAbsent d = true) : deserialize_canonical_facts d = [] := by
  rw [deserialize_canonical_facts, List.filterMap_eq_nil_iff]
  intro f hf
  rw [canonicalAbsent, List.all_eq_true] at h
  have hfd := h f hf
  match hl : d.lookup f with
  | none => simp
  | some v =>
      rw [hl] at hfd
      simp only at hfd
      simp [hfd]

/-- Counterexample to C5: the payload `{"display_name": "x"}` has every
canonical-fact field absent, yet deserializing it does not fail with the
missing-identity error — schema validation runs first and rejects it
because the required `account` field is missing, so it fails with
`ValidationError` instead (matching `test_with_invalid_input`, where the
bare `{}` payload raises the schema's `ValidationException`). -/
theorem deserialize_host_display_name_counterexample :
    deserialize_host hostSchemaLoad [("display_name", .vstr "x")] =
      .error (.validation ["account"]) ∧
    DeserializeHostError.validation ["account"] ≠
      DeserializeHostError.missingIdentity :=
  ⟨rfl, by decide⟩

/-- C5 (amended): for every validator and payload, if schema validation
succeeds and every canonical-fact field of the validated payload is
absent, empty, or null, then `deserialize_host` fails with
`MissingIdentityError` and no Host is constructed; a payload that fails
schema validation (such as `{"display_name": "x"}` alone, which lacks the
required `account`) instead fails with `ValidationError` carrying the
schema's detail — in either case no Host is constructed. -/
theorem deserialize_host_missing_identity
    (validate : List (String × Val) → Except (List String) (List (String × Val)))
    (raw d : List (String × Val)) :
    (validate raw = .ok d → canonicalAbsent d = true →
      deserialize_host validate raw = .error .missingIdentity) ∧
    (∀ errs, validate raw = .error errs →
      deserialize_host validate raw = .error (.validation errs)) := by
  constructor
  · intro hv hc
    have hcf := canonicalAbsent_extract d hc
    simp [deserialize_host, hv, hcf]
  · intro errs hv
    simp [deserialize_host, hv]

/-- Witness for C5: the payload `{"account": "someacct"}` passes the
schema but supplies no canonical fact, so deserializing fails with the
missing-identity error; and `{"display_name": "x"}` fails the schema with
a validation error. -/
theorem deserialize_host_missing_identity_witness :
    deserialize_host hostSchemaLoad [("account", .vstr "someacct")] =
      .error .missingIdentity ∧
    deserialize_host hostSchemaLoad [("display_name", .vstr "x")] =
      .error (.validation ["account"]) :=
  ⟨(deserialize_host_missing_identity hostSchemaLoad
      [("account", .vstr "someacct")] [("account", .vstr "someacct")]).1
      rfl (by decide),
    (deserialize_host_missing_identity hostSchemaLoad
      [("display_name", .vstr "x")] []).2 ["account"] rfl⟩
